import Mathlib

/-!
# Verification of the PyBaMM thermal submodel equation assembly

A shallow embedding of `src/pybamm/models/submodels/thermal.py`: the class
`Thermal` extracts named fields from a shared variable registry, builds
symbolic heat-source expressions, and registers rhs / algebraic /
boundary-condition / initial-condition equations under two discretization
variants (full spatial and x-lumped), plus a published-variables map.

Symbolic expressions are embedded as an inductive AST mirroring the pybamm
expression-graph operations the submodel uses (`grad`, `div`,
`Concatenation`, `Broadcast`, `boundary_value`, `average`, arithmetic).
Python raising an exception is modelled with `Except`: `.error s` means an
exception propagated leaving the instance in state `s`; `.ok s` a normal
return with final state `s`.  `variables.get(name)` returning `None` is
modelled as an `Option Expr` lookup, and pybamm arithmetic on `None`
(a `TypeError` in Python) as failure of the corresponding monadic bind.
-/

namespace PyBaMMThermal

/-- Symbolic expression-graph nodes: the subset of the pybamm algebra used by
`thermal.py`.  `pow` carries an integer exponent (`** 2`, `** (-1)`);
`broadcast` carries the domain-name list; `boundaryValue` carries the side
string; `dvg` is `pybamm.div` (spatial divergence). -/
inductive Expr : Type where
  | scalar : ℚ → Expr
  | var : String → Expr
  | neg : Expr → Expr
  | add : Expr → Expr → Expr
  | sub : Expr → Expr → Expr
  | mul : Expr → Expr → Expr
  | div : Expr → Expr → Expr
  | pow : Expr → Int → Expr
  | grad : Expr → Expr
  | dvg : Expr → Expr
  | concat : Expr → Expr → Expr → Expr
  | broadcast : Expr → List String → Expr
  | boundaryValue : Expr → String → Expr
  | average : Expr → Expr
  deriving DecidableEq, Repr

/-- `.orphans`: the ordered children of an expression node; for a
`Concatenation` these are the ordered sub-domain components. -/
def Expr.orphans : Expr → List Expr
  | .scalar _ => []
  | .var _ => []
  | .neg a => [a]
  | .add a b => [a, b]
  | .sub a b => [a, b]
  | .mul a b => [a, b]
  | .div a b => [a, b]
  | .pow a _ => [a]
  | .grad a => [a]
  | .dvg a => [a]
  | .concat a b c => [a, b, c]
  | .broadcast a _ => [a]
  | .boundaryValue a _ => [a]
  | .average a => [a]

/-- The parameter object `set_of_parameters`: named scalar attributes are
symbolic expressions, and `dUdT_n` / `dUdT_p` are the electrode-side
entropic-coefficient closures. -/
structure Params where
  delta : Expr
  B : Expr
  C_th : Expr
  rho_k : Expr
  rho : Expr
  lambda_k : Expr
  h : Expr
  Theta : Expr
  T_init : Expr
  Delta_T : Expr
  T_ref : Expr
  i_typ : Expr
  potential_scale : Expr
  L_x : Expr
  dUdT_n : Expr → Expr
  dUdT_p : Expr → Expr

/-- The variable registry: field name to symbolic expression; `.get` on an
absent key yields `none` (Python `None`). -/
def Registry : Type := String → Option Expr

/-- The reaction structure: `reactions[rid][side][key]` nested-dict access;
an absent key is `none` (a Python `KeyError` when indexed). -/
def Reactions : Type := String → String → String → Option Expr

/-- The equation-registration state of a `Thermal` instance: the four
equation maps plus the published-variables map, each an insertion-ordered
association list (Python dicts preserve insertion order).  A
boundary-condition entry maps an unknown to side/(expression, kind) pairs,
the kind being the string `"Dirichlet"` or `"Neumann"`. -/
structure SubState where
  rhs : List (Expr × Expr)
  algebraic : List (Expr × Expr)
  boundary_conditions : List (Expr × List (String × Expr × String))
  initial_conditions : List (Expr × Expr)
  variables_ : List (String × Expr)
  deriving DecidableEq, Repr

/-- Modelled from the spec: the `pybamm.Submodel` base-class initialisation
is not under `src/`; §3 of the spec states the equation-registration state
"starts empty" at construction, so a fresh instance holds five empty maps. -/
def initState : SubState :=
  { rhs := [], algebraic := [], boundary_conditions := [],
    initial_conditions := [], variables_ := [] }

/-- `Thermal.unpack` (thermal.py lines 21–86).  Each `variables.get` is an
`Option` lookup.  A field that is fetched and then *used* in expression
arithmetic is matched against `none` (pybamm arithmetic on `None` raises a
`TypeError` in Python, i.e. the whole call fails, which the `none` branch
models); `T_s` is fetched but never used, and `T_k` is fetched and returned
as-is without being used, so their absence does not make `unpack` itself
fail — the returned first component is the raw `Option` for
`"Cell temperature"`.  Returns `(T_k, Q_ohm, Q_rxn, Q_rev)`. -/
def unpack (param : Params) (vars : Registry) (reactions : Reactions) :
    Option (Option Expr × Expr × Expr × Expr) :=
  match vars "Negative electrode temperature" with
  | none => none
  | some T_n =>
  match vars "Positive electrode temperature" with
  | none => none
  | some T_p =>
  let T_k := vars "Cell temperature"
  match vars "Negative electrode current density" with
  | none => none
  | some i_s_n =>
  match vars "Positive electrode current density" with
  | none => none
  | some i_s_p =>
  match vars "Negative electrolyte current density" with
  | none => none
  | some i_e_n =>
  match vars "Separator electrolyte current density" with
  | none => none
  | some i_e_s =>
  match vars "Positive electrolyte current density" with
  | none => none
  | some i_e_p =>
  match vars "Negative electrode potential" with
  | none => none
  | some phi_s_n =>
  match vars "Positive electrode potential" with
  | none => none
  | some phi_s_p =>
  match vars "Negative electrolyte potential" with
  | none => none
  | some phi_e_n =>
  match vars "Separator electrolyte potential" with
  | none => none
  | some phi_e_s =>
  match vars "Positive electrolyte potential" with
  | none => none
  | some phi_e_p =>
  match reactions "main" "neg" "aj" with
  | none => none
  | some j_n =>
  match reactions "main" "pos" "aj" with
  | none => none
  | some j_p =>
  match vars "Negative reaction overpotential" with
  | none => none
  | some eta_r_n =>
  match vars "Positive reaction overpotential" with
  | none => none
  | some eta_r_p =>
  let Q_ohm_n := Expr.sub (.mul (.neg i_s_n) (.grad phi_s_n))
                          (.mul i_e_n (.grad phi_e_n))
  let Q_ohm_s := Expr.mul (.neg i_e_s) (.grad phi_e_s)
  let Q_ohm_p := Expr.sub (.mul (.neg i_s_p) (.grad phi_s_p))
                          (.mul i_e_p (.grad phi_e_p))
  let Q_ohm := Expr.concat Q_ohm_n Q_ohm_s Q_ohm_p
  let Q_rxn_n := Expr.mul j_n eta_r_n
  let Q_rxn_p := Expr.mul j_p eta_r_p
  let Q_rxn := Expr.concat Q_rxn_n (.broadcast (.scalar 0) ["separator"]) Q_rxn_p
  match vars "Negative particle surface concentration" with
  | none => none
  | some c_s_n_surf =>
  match vars "Positive particle surface concentration" with
  | none => none
  | some c_s_p_surf =>
  let Q_rev_n := Expr.mul (.mul j_n (.add (.pow param.Theta (-1)) T_n))
                          (param.dUdT_n c_s_n_surf)
  let Q_rev_p := Expr.mul (.mul j_p (.add (.pow param.Theta (-1)) T_p))
                          (param.dUdT_p c_s_p_surf)
  let Q_rev := Expr.concat Q_rev_n (.broadcast (.scalar 0) ["separator"]) Q_rev_p
  some (T_k, Q_ohm, Q_rxn, Q_rev)

/-- `Thermal.get_variables` (thermal.py lines 139–174): the published
Variables map.  Python destructures `T_n, T_s, T_p = T_k.orphans`, which
raises unless `T_k` has exactly three children: modelled by the `none`
branch.  Every dimensionless temperature is paired with
`param.Delta_T * X + param.T_ref` in Kelvin; each heat source with
`param.i_typ * param.potential_scale * Q / param.L_x`; the heat flux is
published twice, unscaled. -/
def get_variables (param : Params) (T_k q Q_ohm Q_rxn Q_rev : Expr) :
    Option (List (String × Expr)) :=
  match T_k.orphans with
  | [T_n, T_s, T_p] =>
    let T_k_av := Expr.average T_k
    some [
      ("Negative electrode temperature", T_n),
      ("Negative electrode temperature [K]",
        .add (.mul param.Delta_T T_n) param.T_ref),
      ("Separator temperature", T_s),
      ("Separator temperature [K]",
        .add (.mul param.Delta_T T_s) param.T_ref),
      ("Positive electrode temperature", T_p),
      ("Positive electrode temperature [K]",
        .add (.mul param.Delta_T T_p) param.T_ref),
      ("Cell temperature", T_k),
      ("Cell temperature [K]",
        .add (.mul param.Delta_T T_k) param.T_ref),
      ("Average cell temperature", T_k_av),
      ("Average cell temperature [K]",
        .add (.mul param.Delta_T T_k_av) param.T_ref),
      ("Heat flux", q),
      ("Heat flux [W.m-2]", q),
      ("Ohmic heating", Q_ohm),
      ("Ohmic heating [A.V.m-3]",
        .div (.mul (.mul param.i_typ param.potential_scale) Q_ohm) param.L_x),
      ("Irreversible electrochemical heating", Q_rxn),
      ("Irreversible electrochemical heating [A.V.m-3]",
        .div (.mul (.mul param.i_typ param.potential_scale) Q_rxn) param.L_x),
      ("Reversible heating", Q_rev),
      ("Reversible heating [A.V.m-3]",
        .div (.mul (.mul param.i_typ param.potential_scale) Q_rev) param.L_x)]
  | _ => none

/-- `Thermal.set_full_differential_system` (thermal.py lines 102–123),
acting on instance state `s`.  Failure points, in source order: `unpack`
raising (any used field absent), `pybamm.grad(T_k)` with `T_k = None`
(absent `"Cell temperature"`) — both before any assignment, so the state is
left at `s`; then the four equation maps are assigned in order, and only
then is `get_variables` evaluated for the `self.variables` assignment, so
its failure (`T_k.orphans` not of length three) leaves the four maps
already mutated. -/
def set_full_differential_system (param : Params) (s : SubState)
    (vars : Registry) (reactions : Reactions) : Except SubState SubState :=
  match unpack param vars reactions with
  | none => .error s
  | some (T_kOpt, Q_ohm, Q_rxn, Q_rev) =>
    match T_kOpt with
    | none => .error s
    | some T_k =>
      let q := Expr.mul (.neg param.lambda_k) (.grad T_k)
      let rhsEq := Expr.div
        (.add (.neg (.dvg q))
              (.mul (.mul (.pow param.delta 2) param.B)
                    (.add (.add Q_ohm Q_rxn) Q_rev)))
        (.mul (.mul (.pow param.delta 2) param.C_th) param.rho_k)
      let T_n_left := Expr.boundaryValue T_k "left"
      let T_p_right := Expr.boundaryValue T_k "right"
      let s' : SubState :=
        { s with
          rhs := [(T_k, rhsEq)],
          algebraic := [],
          boundary_conditions :=
            [(T_k, [("left", (.div (.mul param.h T_n_left) param.lambda_k,
                              "Neumann")),
                    ("right", (.div (.mul param.h T_p_right) param.lambda_k,
                               "Neumann"))])],
          initial_conditions := [(T_k, param.T_init)] }
      match get_variables param T_k q Q_ohm Q_rxn Q_rev with
      | none => .error s'
      | some vs => .ok { s' with variables_ := vs }

/-- `Thermal.set_x_lumped_differential_system` (thermal.py lines 125–137),
acting on instance state `s`.  `unpack` raising, or `T_k = None` in the rhs
arithmetic, aborts before the single assignment; on success only
`self.rhs` is reassigned. -/
def set_x_lumped_differential_system (param : Params) (s : SubState)
    (vars : Registry) (reactions : Reactions) : Except SubState SubState :=
  match unpack param vars reactions with
  | none => .error s
  | some (T_kOpt, Q_ohm, Q_rxn, Q_rev) =>
    match T_kOpt with
    | none => .error s
    | some T_k =>
      let Q := Expr.add (.add Q_ohm Q_rxn) Q_rev
      let Q_av := Expr.average Q
      .ok { s with
            rhs := [(T_k, Expr.div
              (.sub (.mul param.B Q_av)
                    (.mul (.div (.mul (.scalar 2) param.h)
                                (.pow param.delta 2)) T_k))
              (.mul param.C_th param.rho))] }

/-!
## Evaluation semantics

The submodel never evaluates its expressions; a downstream discretiser
does.  To state semantic claims (scaling identities, the average of a
constant field) we give the expression graph a pointwise rational
semantics over a three-point spatial index — one sample per sub-domain in
the fixed (negative, separator, positive) order.  Differential operators
are interpreted by arbitrary field-to-field operators supplied by the
environment, so nothing is assumed about `grad`/`div` themselves.
-/

/-- An evaluation environment: a value for every named registry field, an
interpretation for the two differential operators, and one for named
symbolic atoms (`var`). -/
structure Env where
  vals : String → Fin 3 → ℚ
  gradOp : (Fin 3 → ℚ) → Fin 3 → ℚ
  divOp : (Fin 3 → ℚ) → Fin 3 → ℚ

/-- Pointwise evaluation of an expression at one of the three sub-domain
sample points.  A `concat` draws its value from the component owning the
point; `broadcast` is a constant field; `boundaryValue` reads the extreme
left or right sample; `average` is the mean of the three samples. -/
def evalE (env : Env) : Expr → Fin 3 → ℚ
  | .scalar q, _ => q
  | .var n, i => env.vals n i
  | .neg a, i => -(evalE env a i)
  | .add a b, i => evalE env a i + evalE env b i
  | .sub a b, i => evalE env a i - evalE env b i
  | .mul a b, i => evalE env a i * evalE env b i
  | .div a b, i => evalE env a i / evalE env b i
  | .pow a k, i => (evalE env a i) ^ k
  | .grad a, i => env.gradOp (fun j => evalE env a j) i
  | .dvg a, i => env.divOp (fun j => evalE env a j) i
  | .concat a b c, i =>
      if i.val = 0 then evalE env a i
      else if i.val = 1 then evalE env b i else evalE env c i
  | .broadcast a _, i => evalE env a i
  | .boundaryValue a side, _ =>
      if side = "left" then evalE env a 0 else evalE env a 2
  | .average a, _ => (evalE env a 0 + evalE env a 1 + evalE env a 2) / 3

/-- Keys of an association list of equations. -/
def eqKeys {α : Type} (m : List (Expr × α)) : List Expr := m.map Prod.fst

/-- Number of entries of an association list under a given unknown. -/
def countKey {α : Type} (m : List (Expr × α)) (u : Expr) : Nat :=
  m.countP (fun x => decide (x.1 = u))

/-- Lookup in the published-variables map. -/
def lookupVar (m : List (String × Expr)) (k : String) : Option Expr :=
  (m.find? (fun x => x.1 == k)).map Prod.snd

/-- The §4.1 required field names whose absence the full-spatial assembly
actually reacts to: every field `unpack` or `set_full_differential_system`
feeds into expression arithmetic.  `"Separator temperature"` is fetched by
`unpack` but never used, so it is not in this list. -/
def usedFields : List String :=
  ["Negative electrode temperature",
   "Positive electrode temperature",
   "Cell temperature",
   "Negative electrode current density",
   "Positive electrode current density",
   "Negative electrolyte current density",
   "Separator electrolyte current density",
   "Positive electrolyte current density",
   "Negative electrode potential",
   "Positive electrode potential",
   "Negative electrolyte potential",
   "Separator electrolyte potential",
   "Positive electrolyte potential",
   "Negative reaction overpotential",
   "Positive reaction overpotential",
   "Negative particle surface concentration",
   "Positive particle surface concentration"]

/-!
## Concrete instances used as witnesses

A parameter object of distinct symbolic atoms, a fully-populated registry
whose cell temperature is a three-component concatenation (as the full
model produces), a reaction structure answering every key, and the same
registry with `"Separator temperature"` removed.
-/

/-- A concrete parameter object: every scalar attribute a distinct symbolic
atom, each entropic closure multiplying its argument by an atom. -/
def pC : Params :=
  { delta := .var "delta", B := .var "B", C_th := .var "C_th",
    rho_k := .var "rho_k", rho := .var "rho", lambda_k := .var "lambda_k",
    h := .var "h", Theta := .var "Theta", T_init := .var "T_init",
    Delta_T := .var "Delta_T", T_ref := .var "T_ref", i_typ := .var "i_typ",
    potential_scale := .var "potential_scale", L_x := .var "L_x",
    dUdT_n := fun c => Expr.mul (.var "dUdT_n") c,
    dUdT_p := fun c => Expr.mul (.var "dUdT_p") c }

/-- The concrete whole-cell temperature unknown served by the witness
registry: a three-component concatenation, as the full model produces. -/
def T_kC : Expr :=
  .concat (.var "Negative electrode temperature")
          (.var "Separator temperature")
          (.var "Positive electrode temperature")

/-- A registry answering every name with a symbolic atom, the cell
temperature being the concatenation of the three per-domain temperature
atoms. -/
def regC : Registry := fun n =>
  if n = "Cell temperature" then some T_kC else some (.var n)

/-- `regC` with the required field `"Separator temperature"` absent. -/
def regM : Registry := fun n =>
  if n = "Separator temperature" then none else regC n

/-- `regC` with the required field `"Negative electrode temperature"`
absent. -/
def regN : Registry := fun n =>
  if n = "Negative electrode temperature" then none else regC n

/-- A reaction structure answering every nested key with a symbolic atom. -/
def rxC : Reactions := fun r side k =>
  some (.var (r ++ " " ++ side ++ " " ++ k))

/-- The state computed by the full-spatial assembly on the witness inputs. -/
def stFullC : SubState :=
  match set_full_differential_system pC initState regC rxC with
  | .ok st => st
  | .error st => st

/-- The state computed by the lumped assembly on the witness inputs. -/
def stLumpC : SubState :=
  match set_x_lumped_differential_system pC initState regC rxC with
  | .ok st => st
  | .error st => st

/-- The state computed by the full-spatial assembly on the registry missing
`"Separator temperature"`. -/
def stFullM : SubState :=
  match set_full_differential_system pC initState regM rxC with
  | .ok st => st
  | .error st => st

/-!
## Shared characterisation lemmas
-/

/-- On success, the first component `unpack` returns is the raw registry
lookup of `"Cell temperature"`. -/
theorem unpack_fst (param : Params) (vars : Registry) (reactions : Reactions)
    (tk : Option Expr) (Qo Qx Qv : Expr)
    (h : unpack param vars reactions = some (tk, Qo, Qx, Qv)) :
    tk = vars "Cell temperature" := by
  unfold unpack at h
  repeat' split at h
  all_goals simp_all

/-- Full characterisation of a successful `unpack` from the registry
lookups of all used fields. -/
theorem unpack_present (param : Params) (vars : Registry)
    (reactions : Reactions)
    (T_n T_p i_s_n i_s_p i_e_n i_e_s i_e_p phi_s_n phi_s_p phi_e_n phi_e_s
     phi_e_p j_n j_p eta_r_n eta_r_p c_s_n_surf c_s_p_surf : Expr)
    (h1 : vars "Negative electrode temperature" = some T_n)
    (h2 : vars "Positive electrode temperature" = some T_p)
    (h3 : vars "Negative electrode current density" = some i_s_n)
    (h4 : vars "Positive electrode current density" = some i_s_p)
    (h5 : vars "Negative electrolyte current density" = some i_e_n)
    (h6 : vars "Separator electrolyte current density" = some i_e_s)
    (h7 : vars "Positive electrolyte current density" = some i_e_p)
    (h8 : vars "Negative electrode potential" = some phi_s_n)
    (h9 : vars "Positive electrode potential" = some phi_s_p)
    (h10 : vars "Negative electrolyte potential" = some phi_e_n)
    (h11 : vars "Separator electrolyte potential" = some phi_e_s)
    (h12 : vars "Positive electrolyte potential" = some phi_e_p)
    (h13 : reactions "main" "neg" "aj" = some j_n)
    (h14 : reactions "main" "pos" "aj" = some j_p)
    (h15 : vars "Negative reaction overpotential" = some eta_r_n)
    (h16 : vars "Positive reaction overpotential" = some eta_r_p)
    (h17 : vars "Negative particle surface concentration" = some c_s_n_surf)
    (h18 : vars "Positive particle surface concentration" = some c_s_p_surf) :
    unpack param vars reactions =
      some (vars "Cell temperature",
        Expr.concat
          (.sub (.mul (.neg i_s_n) (.grad phi_s_n))
                (.mul i_e_n (.grad phi_e_n)))
          (.mul (.neg i_e_s) (.grad phi_e_s))
          (.sub (.mul (.neg i_s_p) (.grad phi_s_p))
                (.mul i_e_p (.grad phi_e_p))),
        Expr.concat (.mul j_n eta_r_n) (.broadcast (.scalar 0) ["separator"])
          (.mul j_p eta_r_p),
        Expr.concat
          (.mul (.mul j_n (.add (.pow param.Theta (-1)) T_n))
                (param.dUdT_n c_s_n_surf))
          (.broadcast (.scalar 0) ["separator"])
          (.mul (.mul j_p (.add (.pow param.Theta (-1)) T_p))
                (param.dUdT_p c_s_p_surf))) := by
  simp only [unpack, h1, h2, h3, h4, h5, h6, h7, h8, h9, h10, h11, h12, h13,
    h14, h15, h16, h17, h18]

/-- Inversion of a successful full-spatial assembly: the exact final
state, in terms of the unpacked temperature and heat sources. -/
theorem set_full_ok_inv (param : Params) (s : SubState) (vars : Registry)
    (reactions : Reactions) (st : SubState)
    (h : set_full_differential_system param s vars reactions = .ok st) :
    ∃ T_k Qo Qx Qv vs,
      unpack param vars reactions = some (some T_k, Qo, Qx, Qv) ∧
      get_variables param T_k (Expr.mul (.neg param.lambda_k) (.grad T_k))
        Qo Qx Qv = some vs ∧
      st = { rhs := [(T_k, Expr.div
                (.add (.neg (.dvg (Expr.mul (.neg param.lambda_k) (.grad T_k))))
                      (.mul (.mul (.pow param.delta 2) param.B)
                            (.add (.add Qo Qx) Qv)))
                (.mul (.mul (.pow param.delta 2) param.C_th) param.rho_k))],
             algebraic := [],
             boundary_conditions :=
               [(T_k, [("left",
                        (Expr.div (.mul param.h (.boundaryValue T_k "left"))
                          param.lambda_k, "Neumann")),
                       ("right",
                        (Expr.div (.mul param.h (.boundaryValue T_k "right"))
                          param.lambda_k, "Neumann"))])],
             initial_conditions := [(T_k, param.T_init)],
             variables_ := vs } := by
  simp only [set_full_differential_system] at h
  rcases hu : unpack param vars reactions with _ | ⟨tk, Qo, Qx, Qv⟩
  · rw [hu] at h; simp at h
  · rw [hu] at h
    rcases tk with _ | T_k
    · simp at h
    · simp at h
      rcases hg : get_variables param T_k
        (Expr.mul (.neg param.lambda_k) (.grad T_k)) Qo Qx Qv with _ | vs
      · rw [hg] at h; simp at h
      · rw [hg] at h
        simp only [Except.ok.injEq] at h
        exact ⟨T_k, Qo, Qx, Qv, vs, rfl, hg, h.symm⟩

/-- Inversion of a successful lumped assembly: the final state only
replaces `rhs`, with the registered expression fully explicit. -/
theorem set_x_lumped_ok_inv (param : Params) (s : SubState) (vars : Registry)
    (reactions : Reactions) (st : SubState)
    (h : set_x_lumped_differential_system param s vars reactions = .ok st) :
    ∃ T_k Qo Qx Qv,
      unpack param vars reactions = some (some T_k, Qo, Qx, Qv) ∧
      st = { s with rhs := [(T_k, Expr.div
                (.sub (.mul param.B (.average (.add (.add Qo Qx) Qv)))
                      (.mul (.div (.mul (.scalar 2) param.h)
                                  (.pow param.delta 2)) T_k))
                (.mul param.C_th param.rho))] } := by
  simp only [set_x_lumped_differential_system] at h
  rcases hu : unpack param vars reactions with _ | ⟨tk, Qo, Qx, Qv⟩
  · rw [hu] at h; simp at h
  · rw [hu] at h
    rcases tk with _ | T_k
    · simp at h
    · simp only [Except.ok.injEq] at h
      exact ⟨T_k, Qo, Qx, Qv, rfl, h.symm⟩

/-!
## Claims
-/

/-- C1, counterexample: with every §4.1 field present except
`"Separator temperature"`, full-spatial assembly raises no error at all —
it returns normally and populates the registration maps — refuting that a
missing required field always raises a missing-dependency error. -/
theorem C1_counterexample :
    regM "Separator temperature" = none ∧
    set_full_differential_system pC initState regM rxC = .ok stFullM ∧
    stFullM.rhs ≠ [] ∧ stFullM.boundary_conditions ≠ [] ∧
    stFullM.initial_conditions ≠ [] := by
  refine ⟨rfl, rfl, ?_, ?_, ?_⟩ <;> decide

/-- C1, amended: if a §4.1 field that the assembly actually feeds into
expression arithmetic (any required field except the fetched-but-unused
`"Separator temperature"`) is absent from the registry, full-spatial
assembly fails — by arithmetic on the absent marker, without naming the
field — and the instance state is returned unchanged, so none of the four
equation-registration maps is even partially mutated. -/
theorem C1_missing_used_field_fails_before_mutation (param : Params)
    (s : SubState) (vars : Registry) (reactions : Reactions) (f : String)
    (hf : f ∈ usedFields) (h : vars f = none) :
    set_full_differential_system param s vars reactions = .error s := by
  fin_cases hf <;>
  first
  | (have hnone : unpack param vars reactions = none := by
       simp only [unpack, h] <;> (repeat' split) <;> rfl
     simp only [set_full_differential_system, hnone])
  | (rcases hu : unpack param vars reactions with _ | ⟨tk, Qo, Qx, Qv⟩
     · simp only [set_full_differential_system, hu]
     · have htk := unpack_fst param vars reactions tk Qo Qx Qv hu
       rw [h] at htk
       subst htk
       simp only [set_full_differential_system, hu])

/-- C1, witness: the amended theorem applied to the registry missing
`"Negative electrode temperature"`. -/
theorem C1_witness :
    "Negative electrode temperature" ∈ usedFields ∧
    regN "Negative electrode temperature" = none ∧
    set_full_differential_system pC initState regN rxC =
      .error initState :=
  ⟨by decide, rfl,
    C1_missing_used_field_fails_before_mutation pC initState regN rxC
      "Negative electrode temperature" (by decide) rfl⟩

/-- C2, counterexample: after invoking the lumped assembly entry point on a
fresh instance, the temperature unknown keys `rhs` but has no entry at all
in `initial_conditions` (the lumped path never assigns them), refuting
that every unknown in `rhs` has exactly one initial-conditions entry after
either entry point. -/
theorem C2_counterexample :
    set_x_lumped_differential_system pC initState regC rxC = .ok stLumpC ∧
    eqKeys stLumpC.rhs = [T_kC] ∧
    stLumpC.initial_conditions = [] ∧
    countKey stLumpC.initial_conditions T_kC = 0 := by
  refine ⟨rfl, ?_, ?_, ?_⟩ <;> decide

/-- C2, amended: after `set_full_differential_system` the unknowns keying
`rhs` and `algebraic` are disjoint and every such unknown has exactly one
`initial_conditions` entry; after `set_x_lumped_differential_system` on a
fresh instance the two key sets are still disjoint, but the `rhs` unknown
has no `initial_conditions` entry, because the lumped path registers
none. -/
theorem C2_exclusivity_and_initial_conditions (param : Params)
    (vars : Registry) (reactions : Reactions) (s st stL : SubState)
    (hF : set_full_differential_system param s vars reactions = .ok st)
    (hL : set_x_lumped_differential_system param initState vars reactions =
      .ok stL) :
    ((∀ u, u ∈ eqKeys st.rhs → u ∉ eqKeys st.algebraic) ∧
     (∀ u, u ∈ eqKeys st.rhs ∨ u ∈ eqKeys st.algebraic →
        countKey st.initial_conditions u = 1)) ∧
    ((∀ u, u ∈ eqKeys stL.rhs → u ∉ eqKeys stL.algebraic) ∧
     (∀ u, u ∈ eqKeys stL.rhs → countKey stL.initial_conditions u = 0)) := by
  obtain ⟨T_k, Qo, Qx, Qv, vs, hu, hg, hst⟩ :=
    set_full_ok_inv param s vars reactions st hF
  obtain ⟨T_k2, Qo2, Qx2, Qv2, hu2, hstL⟩ :=
    set_x_lumped_ok_inv param initState vars reactions stL hL
  subst hst hstL
  refine ⟨⟨?_, ?_⟩, ?_, ?_⟩
  · intro u _ hc
    simp [eqKeys] at hc
  · intro u hu'
    have : u = T_k := by
      rcases hu' with h | h
      · simpa [eqKeys] using h
      · simp [eqKeys] at h
    subst this
    simp [countKey]
  · intro u _ hc
    simp [eqKeys, initState] at hc
  · intro u _
    simp [countKey, initState]

/-- C2, witness: the amended theorem applied to the witness registry, with
both entry points invoked on fresh instances. -/
theorem C2_witness :
    set_full_differential_system pC initState regC rxC = .ok stFullC ∧
    set_x_lumped_differential_system pC initState regC rxC = .ok stLumpC ∧
    countKey stFullC.initial_conditions T_kC = 1 := by
  refine ⟨rfl, rfl, ?_⟩
  have h := (C2_exclusivity_and_initial_conditions pC regC rxC initState
    stFullC stLumpC rfl rfl).1.2 T_kC (Or.inl (by decide))
  exact h

/-- C3: a successful full-spatial assembly registers, for the unpacked
temperature unknown, exactly two boundary-condition entries — "left" and
"right", both of kind "Neumann", with flux
`h * boundary_value(T, side) / lambda_k` on the respective side — while the
lumped assembly on a fresh instance registers no boundary-condition
entries at all. -/
theorem C3_boundary_condition_variants (param : Params) (s : SubState)
    (vars : Registry) (reactions : Reactions) (st stL : SubState)
    (hF : set_full_differential_system param s vars reactions = .ok st)
    (hL : set_x_lumped_differential_system param initState vars reactions =
      .ok stL) :
    (∃ T_k Qo Qx Qv,
      unpack param vars reactions = some (some T_k, Qo, Qx, Qv) ∧
      st.boundary_conditions =
        [(T_k, [("left",
                 (Expr.div (.mul param.h (.boundaryValue T_k "left"))
                   param.lambda_k, "Neumann")),
                ("right",
                 (Expr.div (.mul param.h (.boundaryValue T_k "right"))
                   param.lambda_k, "Neumann"))])]) ∧
    stL.boundary_conditions = [] := by
  obtain ⟨T_k, Qo, Qx, Qv, vs, hu, hg, hst⟩ :=
    set_full_ok_inv param s vars reactions st hF
  obtain ⟨T_k2, Qo2, Qx2, Qv2, hu2, hstL⟩ :=
    set_x_lumped_ok_inv param initState vars reactions stL hL
  subst hst hstL
  exact ⟨⟨T_k, Qo, Qx, Qv, hu, rfl⟩, rfl⟩

/-- C3, witness: both entry points on the witness inputs. -/
theorem C3_witness :
    set_full_differential_system pC initState regC rxC = .ok stFullC ∧
    set_x_lumped_differential_system pC initState regC rxC = .ok stLumpC ∧
    stLumpC.boundary_conditions = [] := by
  refine ⟨rfl, rfl, ?_⟩
  exact (C3_boundary_condition_variants pC initState regC rxC stFullC
    stLumpC rfl rfl).2

/-- C4: a successful full-spatial assembly builds the heat flux
`q = -lambda_k * grad(T)` and registers
`rhs[T] = (-div(q) + delta^2 * B * (Q_ohm + Q_rxn + Q_rev)) /
(delta^2 * C_th * rho_k)`, leaves `algebraic` empty, and sets
`initial_conditions[T]` to the parameter-supplied initial temperature. -/
theorem C4_full_spatial_equations (param : Params) (s : SubState)
    (vars : Registry) (reactions : Reactions) (st : SubState)
    (hF : set_full_differential_system param s vars reactions = .ok st) :
    ∃ T_k Qo Qx Qv,
      unpack param vars reactions = some (some T_k, Qo, Qx, Qv) ∧
      st.rhs = [(T_k, Expr.div
        (.add (.neg (.dvg (Expr.mul (.neg param.lambda_k) (.grad T_k))))
              (.mul (.mul (.pow param.delta 2) param.B)
                    (.add (.add Qo Qx) Qv)))
        (.mul (.mul (.pow param.delta 2) param.C_th) param.rho_k))] ∧
      st.algebraic = [] ∧
      st.initial_conditions = [(T_k, param.T_init)] := by
  obtain ⟨T_k, Qo, Qx, Qv, vs, hu, hg, hst⟩ :=
    set_full_ok_inv param s vars reactions st hF
  subst hst
  exact ⟨T_k, Qo, Qx, Qv, hu, rfl, rfl, rfl⟩

/-- C4, witness: full-spatial assembly on the witness inputs; the
registered system has one evolution equation and no algebraic
constraint. -/
theorem C4_witness :
    set_full_differential_system pC initState regC rxC = .ok stFullC ∧
    stFullC.algebraic = [] := by
  refine ⟨rfl, ?_⟩
  obtain ⟨T_k, Qo, Qx, Qv, _, _, halg, _⟩ :=
    C4_full_spatial_equations pC initState regC rxC stFullC rfl
  exact halg

/-- C5: a successful lumped assembly registers for the unpacked unknown `T`
the single equation
`rhs[T] = (B * average(Q) - 2*h/delta^2 * T) / (C_th * rho)` with
`Q = Q_ohm + Q_rxn + Q_rev`, and in any evaluation environment in which
`Q` is the uniform constant field 1 the registered right-hand side
evaluates to `(B * 1 - 2*h/delta^2 * T) / (C_th * rho)`. -/
theorem C5_lumped_equation (param : Params) (s : SubState)
    (vars : Registry) (reactions : Reactions) (st : SubState)
    (hL : set_x_lumped_differential_system param s vars reactions = .ok st) :
    ∃ T_k Qo Qx Qv,
      unpack param vars reactions = some (some T_k, Qo, Qx, Qv) ∧
      st.rhs = [(T_k, Expr.div
        (.sub (.mul param.B (.average (.add (.add Qo Qx) Qv)))
              (.mul (.div (.mul (.scalar 2) param.h) (.pow param.delta 2))
                    T_k))
        (.mul param.C_th param.rho))] ∧
      ∀ env : Env, (∀ i, evalE env (Expr.add (.add Qo Qx) Qv) i = 1) →
        ∀ i, evalE env (Expr.div
          (.sub (.mul param.B (.average (.add (.add Qo Qx) Qv)))
                (.mul (.div (.mul (.scalar 2) param.h) (.pow param.delta 2))
                      T_k))
          (.mul param.C_th param.rho)) i =
        (evalE env param.B i * 1 -
          2 * evalE env param.h i / (evalE env param.delta i) ^ (2 : ℤ) *
            evalE env T_k i) /
        (evalE env param.C_th i * evalE env param.rho i) := by
  obtain ⟨T_k, Qo, Qx, Qv, hu, hst⟩ :=
    set_x_lumped_ok_inv param s vars reactions st hL
  subst hst
  refine ⟨T_k, Qo, Qx, Qv, hu, rfl, ?_⟩
  intro env hQ i
  have h0 := hQ 0
  have h1 := hQ 1
  have h2 := hQ 2
  simp only [evalE] at h0 h1 h2 ⊢
  rw [h0, h1, h2]
  norm_num

/-- C5, witness: lumped assembly on the witness inputs; its rhs map has a
single entry. -/
theorem C5_witness :
    set_x_lumped_differential_system pC initState regC rxC = .ok stLumpC ∧
    stLumpC.rhs.length = 1 := by
  refine ⟨rfl, ?_⟩
  obtain ⟨T_k, Qo, Qx, Qv, _, hrhs, _⟩ :=
    C5_lumped_equation pC initState regC rxC stLumpC rfl
  rw [hrhs]
  rfl

/-- C6: with every used field present, `unpack` returns `Q_ohm` as the
(negative, separator, positive) concatenation in which each electrode
component is `-i_s * grad(phi_s) - i_e * grad(phi_e)` (both conducting
phases) and the separator component is `-i_e_s * grad(phi_e_s)`
(electrolyte phase only). -/
theorem C6_ohmic_heating_structure (param : Params) (vars : Registry)
    (reactions : Reactions)
    (T_n T_p i_s_n i_s_p i_e_n i_e_s i_e_p phi_s_n phi_s_p phi_e_n phi_e_s
     phi_e_p j_n j_p eta_r_n eta_r_p c_s_n_surf c_s_p_surf : Expr)
    (h1 : vars "Negative electrode temperature" = some T_n)
    (h2 : vars "Positive electrode temperature" = some T_p)
    (h3 : vars "Negative electrode current density" = some i_s_n)
    (h4 : vars "Positive electrode current density" = some i_s_p)
    (h5 : vars "Negative electrolyte current density" = some i_e_n)
    (h6 : vars "Separator electrolyte current density" = some i_e_s)
    (h7 : vars "Positive electrolyte current density" = some i_e_p)
    (h8 : vars "Negative electrode potential" = some phi_s_n)
    (h9 : vars "Positive electrode potential" = some phi_s_p)
    (h10 : vars "Negative electrolyte potential" = some phi_e_n)
    (h11 : vars "Separator electrolyte potential" = some phi_e_s)
    (h12 : vars "Positive electrolyte potential" = some phi_e_p)
    (h13 : reactions "main" "neg" "aj" = some j_n)
    (h14 : reactions "main" "pos" "aj" = some j_p)
    (h15 : vars "Negative reaction overpotential" = some eta_r_n)
    (h16 : vars "Positive reaction overpotential" = some eta_r_p)
    (h17 : vars "Negative particle surface concentration" = some c_s_n_surf)
    (h18 : vars "Positive particle surface concentration" = some c_s_p_surf) :
    ∃ T_k Q_rxn Q_rev,
      unpack param vars reactions = some (T_k,
        Expr.concat
          (.sub (.mul (.neg i_s_n) (.grad phi_s_n))
                (.mul i_e_n (.grad phi_e_n)))
          (.mul (.neg i_e_s) (.grad phi_e_s))
          (.sub (.mul (.neg i_s_p) (.grad phi_s_p))
                (.mul i_e_p (.grad phi_e_p))),
        Q_rxn, Q_rev) :=
  ⟨vars "Cell temperature", _, _,
    unpack_present param vars reactions T_n T_p i_s_n i_s_p i_e_n i_e_s
      i_e_p phi_s_n phi_s_p phi_e_n phi_e_s phi_e_p j_n j_p eta_r_n eta_r_p
      c_s_n_surf c_s_p_surf h1 h2 h3 h4 h5 h6 h7 h8 h9 h10 h11 h12 h13 h14
      h15 h16 h17 h18⟩

/-- C6, witness: the theorem applied to the witness registry. -/
theorem C6_witness : (unpack pC regC rxC).isSome := by
  obtain ⟨T_k, Q_rxn, Q_rev, h⟩ :=
    C6_ohmic_heating_structure pC regC rxC
      (.var "Negative electrode temperature")
      (.var "Positive electrode temperature")
      (.var "Negative electrode current density")
      (.var "Positive electrode current density")
      (.var "Negative electrolyte current density")
      (.var "Separator electrolyte current density")
      (.var "Positive electrolyte current density")
      (.var "Negative electrode potential")
      (.var "Positive electrode potential")
      (.var "Negative electrolyte potential")
      (.var "Separator electrolyte potential")
      (.var "Positive electrolyte potential")
      (.var "main neg aj") (.var "main pos aj")
      (.var "Negative reaction overpotential")
      (.var "Positive reaction overpotential")
      (.var "Negative particle surface concentration")
      (.var "Positive particle surface concentration")
      rfl rfl rfl rfl rfl rfl rfl rfl rfl rfl rfl rfl rfl rfl rfl rfl rfl
      rfl
  rw [h]
  rfl

/-- C7: with every used field present, `unpack` returns `Q_rxn` as the
concatenation whose electrode components are `j * eta_r` and `Q_rev` as
the concatenation whose electrode components are
`j * (Theta^(-1) + T_electrode) * dUdT(c_surf)` with the electrode-side
closure from the parameter object; both have the zero broadcast over the
separator as middle component. -/
theorem C7_reaction_and_reversible_heating (param : Params)
    (vars : Registry) (reactions : Reactions)
    (T_n T_p i_s_n i_s_p i_e_n i_e_s i_e_p phi_s_n phi_s_p phi_e_n phi_e_s
     phi_e_p j_n j_p eta_r_n eta_r_p c_s_n_surf c_s_p_surf : Expr)
    (h1 : vars "Negative electrode temperature" = some T_n)
    (h2 : vars "Positive electrode temperature" = some T_p)
    (h3 : vars "Negative electrode current density" = some i_s_n)
    (h4 : vars "Positive electrode current density" = some i_s_p)
    (h5 : vars "Negative electrolyte current density" = some i_e_n)
    (h6 : vars "Separator electrolyte current density" = some i_e_s)
    (h7 : vars "Positive electrolyte current density" = some i_e_p)
    (h8 : vars "Negative electrode potential" = some phi_s_n)
    (h9 : vars "Positive electrode potential" = some phi_s_p)
    (h10 : vars "Negative electrolyte potential" = some phi_e_n)
    (h11 : vars "Separator electrolyte potential" = some phi_e_s)
    (h12 : vars "Positive electrolyte potential" = some phi_e_p)
    (h13 : reactions "main" "neg" "aj" = some j_n)
    (h14 : reactions "main" "pos" "aj" = some j_p)
    (h15 : vars "Negative reaction overpotential" = some eta_r_n)
    (h16 : vars "Positive reaction overpotential" = some eta_r_p)
    (h17 : vars "Negative particle surface concentration" = some c_s_n_surf)
    (h18 : vars "Positive particle surface concentration" = some c_s_p_surf) :
    ∃ T_k Q_ohm,
      unpack param vars reactions = some (T_k, Q_ohm,
        Expr.concat (.mul j_n eta_r_n)
          (.broadcast (.scalar 0) ["separator"]) (.mul j_p eta_r_p),
        Expr.concat
          (.mul (.mul j_n (.add (.pow param.Theta (-1)) T_n))
                (param.dUdT_n c_s_n_surf))
          (.broadcast (.scalar 0) ["separator"])
          (.mul (.mul j_p (.add (.pow param.Theta (-1)) T_p))
                (param.dUdT_p c_s_p_surf))) :=
  ⟨vars "Cell temperature", _,
    unpack_present param vars reactions T_n T_p i_s_n i_s_p i_e_n i_e_s
      i_e_p phi_s_n phi_s_p phi_e_n phi_e_s phi_e_p j_n j_p eta_r_n eta_r_p
      c_s_n_surf c_s_p_surf h1 h2 h3 h4 h5 h6 h7 h8 h9 h10 h11 h12 h13 h14
      h15 h16 h17 h18⟩

/-- C7, witness: the theorem applied to the witness registry. -/
theorem C7_witness :
    ∃ T_k Q_ohm,
      unpack pC regC rxC = some (T_k, Q_ohm,
        Expr.concat
          (.mul (.var "main neg aj") (.var "Negative reaction overpotential"))
          (.broadcast (.scalar 0) ["separator"])
          (.mul (.var "main pos aj")
                (.var "Positive reaction overpotential")),
        Expr.concat
          (.mul (.mul (.var "main neg aj")
                      (.add (.pow (.var "Theta") (-1))
                            (.var "Negative electrode temperature")))
                (.mul (.var "dUdT_n")
                      (.var "Negative particle surface concentration")))
          (.broadcast (.scalar 0) ["separator"])
          (.mul (.mul (.var "main pos aj")
                      (.add (.pow (.var "Theta") (-1))
                            (.var "Positive electrode temperature")))
                (.mul (.var "dUdT_p")
                      (.var "Positive particle surface concentration")))) :=
  C7_reaction_and_reversible_heating pC regC rxC
    (.var "Negative electrode temperature")
    (.var "Positive electrode temperature")
    (.var "Negative electrode current density")
    (.var "Positive electrode current density")
    (.var "Negative electrolyte current density")
    (.var "Separator electrolyte current density")
    (.var "Positive electrolyte current density")
    (.var "Negative electrode potential")
    (.var "Positive electrode potential")
    (.var "Negative electrolyte potential")
    (.var "Separator electrolyte potential")
    (.var "Positive electrolyte potential")
    (.var "main neg aj") (.var "main pos aj")
    (.var "Negative reaction overpotential")
    (.var "Positive reaction overpotential")
    (.var "Negative particle surface concentration")
    (.var "Positive particle surface concentration")
    rfl rfl rfl rfl rfl rfl rfl rfl rfl rfl rfl rfl rfl rfl rfl rfl rfl rfl

/-- C8: decomposing each heat source returned by `unpack` with `.orphans`
recovers exactly the (negative, separator, positive) pieces it was built
from, and the separator component of `Q_rxn` and of `Q_rev` is the zero
broadcast over the separator, whatever the supplied reaction data. -/
theorem C8_domain_partition (param : Params) (vars : Registry)
    (reactions : Reactions)
    (T_n T_p i_s_n i_s_p i_e_n i_e_s i_e_p phi_s_n phi_s_p phi_e_n phi_e_s
     phi_e_p j_n j_p eta_r_n eta_r_p c_s_n_surf c_s_p_surf : Expr)
    (tk : Option Expr) (Qo Qx Qv : Expr)
    (h1 : vars "Negative electrode temperature" = some T_n)
    (h2 : vars "Positive electrode temperature" = some T_p)
    (h3 : vars "Negative electrode current density" = some i_s_n)
    (h4 : vars "Positive electrode current density" = some i_s_p)
    (h5 : vars "Negative electrolyte current density" = some i_e_n)
    (h6 : vars "Separator electrolyte current density" = some i_e_s)
    (h7 : vars "Positive electrolyte current density" = some i_e_p)
    (h8 : vars "Negative electrode potential" = some phi_s_n)
    (h9 : vars "Positive electrode potential" = some phi_s_p)
    (h10 : vars "Negative electrolyte potential" = some phi_e_n)
    (h11 : vars "Separator electrolyte potential" = some phi_e_s)
    (h12 : vars "Positive electrolyte potential" = some phi_e_p)
    (h13 : reactions "main" "neg" "aj" = some j_n)
    (h14 : reactions "main" "pos" "aj" = some j_p)
    (h15 : vars "Negative reaction overpotential" = some eta_r_n)
    (h16 : vars "Positive reaction overpotential" = some eta_r_p)
    (h17 : vars "Negative particle surface concentration" = some c_s_n_surf)
    (h18 : vars "Positive particle surface concentration" = some c_s_p_surf)
    (h : unpack param vars reactions = some (tk, Qo, Qx, Qv)) :
    Qo.orphans =
      [.sub (.mul (.neg i_s_n) (.grad phi_s_n))
            (.mul i_e_n (.grad phi_e_n)),
       .mul (.neg i_e_s) (.grad phi_e_s),
       .sub (.mul (.neg i_s_p) (.grad phi_s_p))
            (.mul i_e_p (.grad phi_e_p))] ∧
    Qx.orphans =
      [.mul j_n eta_r_n,
       .broadcast (.scalar 0) ["separator"],
       .mul j_p eta_r_p] ∧
    Qv.orphans =
      [.mul (.mul j_n (.add (.pow param.Theta (-1)) T_n))
            (param.dUdT_n c_s_n_surf),
       .broadcast (.scalar 0) ["separator"],
       .mul (.mul j_p (.add (.pow param.Theta (-1)) T_p))
            (param.dUdT_p c_s_p_surf)] := by
  rw [unpack_present param vars reactions T_n T_p i_s_n i_s_p i_e_n i_e_s
    i_e_p phi_s_n phi_s_p phi_e_n phi_e_s phi_e_p j_n j_p eta_r_n eta_r_p
    c_s_n_surf c_s_p_surf h1 h2 h3 h4 h5 h6 h7 h8 h9 h10 h11 h12 h13 h14
    h15 h16 h17 h18] at h
  obtain ⟨rfl, rfl, rfl, rfl⟩ := by
    simpa using h
  exact ⟨rfl, rfl, rfl⟩

/-- C8, witness: the theorem applied to the witness registry, checking the
separator component of the reaction heat source. -/
theorem C8_witness :
    ∃ Qx1 Qx3,
      (Expr.concat Qx1 (.broadcast (.scalar 0) ["separator"]) Qx3).orphans
        = [Qx1, .broadcast (.scalar 0) ["separator"], Qx3] := by
  obtain ⟨-, hx, -⟩ :=
    C8_domain_partition pC regC rxC
      (.var "Negative electrode temperature")
      (.var "Positive electrode temperature")
      (.var "Negative electrode current density")
      (.var "Positive electrode current density")
      (.var "Negative electrolyte current density")
      (.var "Separator electrolyte current density")
      (.var "Positive electrolyte current density")
      (.var "Negative electrode potential")
      (.var "Positive electrode potential")
      (.var "Negative electrolyte potential")
      (.var "Separator electrolyte potential")
      (.var "Positive electrolyte potential")
      (.var "main neg aj") (.var "main pos aj")
      (.var "Negative reaction overpotential")
      (.var "Positive reaction overpotential")
      (.var "Negative particle surface concentration")
      (.var "Positive particle surface concentration")
      (some T_kC) _ _ _
      rfl rfl rfl rfl rfl rfl rfl rfl rfl rfl rfl rfl rfl rfl rfl rfl rfl
      rfl rfl
  exact ⟨_, _, hx⟩

/-- C9: in the published-variables map, each of the five Kelvin-scaled
temperatures evaluates to `Delta_T * dimensionless + T_ref`, each of the
three physically-scaled heat sources evaluates to
`i_typ * potential_scale / L_x * dimensionless`, and the heat-flux
`[W.m-2]` entry is the unscaled flux expression passed through — in every
evaluation environment, hence for arbitrary parameter values including
`Delta_T = 0` and `i_typ = 0`. -/
theorem C9_scaling_round_trip (param : Params)
    (T_k T_n T_s T_p q Qo Qx Qv : Expr)
    (ho : T_k.orphans = [T_n, T_s, T_p]) :
    ∃ vm, get_variables param T_k q Qo Qx Qv = some vm ∧
      (∀ nm ∈ ["Negative electrode temperature", "Separator temperature",
               "Positive electrode temperature", "Cell temperature",
               "Average cell temperature"],
        ∃ d sc, lookupVar vm nm = some d ∧
          lookupVar vm (nm ++ " [K]") = some sc ∧
          ∀ (env : Env) (i : Fin 3), evalE env sc i =
            evalE env param.Delta_T i * evalE env d i +
              evalE env param.T_ref i) ∧
      (∀ nm ∈ ["Ohmic heating", "Irreversible electrochemical heating",
               "Reversible heating"],
        ∃ d sc, lookupVar vm nm = some d ∧
          lookupVar vm (nm ++ " [A.V.m-3]") = some sc ∧
          ∀ (env : Env) (i : Fin 3), evalE env sc i =
            evalE env param.i_typ i * evalE env param.potential_scale i /
              evalE env param.L_x i * evalE env d i) ∧
      lookupVar vm "Heat flux [W.m-2]" = some q := by
  unfold get_variables
  rw [ho]
  refine ⟨_, rfl, ?_, ?_, ?_⟩
  · intro nm hnm
    fin_cases hnm <;>
      exact ⟨_, _, rfl, rfl, fun env i => by simp only [evalE]⟩
  · intro nm hnm
    fin_cases hnm <;>
      exact ⟨_, _, rfl, rfl, fun env i => by simp only [evalE]; ring⟩
  · rfl

/-- C9, witness: the theorem applied to the witness concatenation; the
published map exists and answers the heat-flux lookup. -/
theorem C9_witness :
    ∃ vm, get_variables pC T_kC (.var "q") (.var "Qo") (.var "Qx")
        (.var "Qv") = some vm ∧
      lookupVar vm "Heat flux [W.m-2]" = some (.var "q") := by
  obtain ⟨vm, hvm, -, -, hq⟩ :=
    C9_scaling_round_trip pC T_kC
      (.var "Negative electrode temperature")
      (.var "Separator temperature")
      (.var "Positive electrode temperature")
      (.var "q") (.var "Qo") (.var "Qx") (.var "Qv") rfl
  exact ⟨vm, hvm, hq⟩

/-- C10: a successful lumped assembly replaces only the `rhs` map —
`algebraic`, `boundary_conditions`, `initial_conditions` and the published
-variables map are exactly those of the prior state — whereas a successful
full-spatial assembly on the same inputs assigns all of them: `rhs`,
`boundary_conditions`, `initial_conditions` and the published-variables
map become nonempty and `algebraic` is reset to empty. -/
theorem C10_lumped_frame_effect (param : Params) (s : SubState)
    (vars : Registry) (reactions : Reactions) (stL stF : SubState)
    (hL : set_x_lumped_differential_system param s vars reactions = .ok stL)
    (hF : set_full_differential_system param s vars reactions = .ok stF) :
    (stL.algebraic = s.algebraic ∧
     stL.boundary_conditions = s.boundary_conditions ∧
     stL.initial_conditions = s.initial_conditions ∧
     stL.variables_ = s.variables_ ∧
     ∃ T_k e, stL.rhs = [(T_k, e)]) ∧
    (stF.rhs ≠ [] ∧ stF.algebraic = [] ∧ stF.boundary_conditions ≠ [] ∧
     stF.initial_conditions ≠ [] ∧ stF.variables_ ≠ []) := by
  obtain ⟨T_k, Qo, Qx, Qv, hu, hstL⟩ :=
    set_x_lumped_ok_inv param s vars reactions stL hL
  obtain ⟨T_k2, Qo2, Qx2, Qv2, vs, hu2, hg, hstF⟩ :=
    set_full_ok_inv param s vars reactions stF hF
  subst hstL hstF
  refine ⟨⟨rfl, rfl, rfl, rfl, _, _, rfl⟩, ?_, rfl, ?_, ?_, ?_⟩
  · simp
  · simp
  · simp
  · simp only [get_variables] at hg
    rcases hor : T_k2.orphans with _ | ⟨a, t⟩
    · rw [hor] at hg; simp at hg
    · rcases t with _ | ⟨b, t2⟩
      · rw [hor] at hg; simp at hg
      · rcases t2 with _ | ⟨c, t3⟩
        · rw [hor] at hg; simp at hg
        · rcases t3 with _ | ⟨d, t4⟩
          · rw [hor] at hg
            simp only [Option.some.injEq] at hg
            subst hg
            simp
          · rw [hor] at hg; simp at hg

/-- C10, witness: both entry points on the witness inputs; the lumped
result publishes no variables. -/
theorem C10_witness :
    set_x_lumped_differential_system pC initState regC rxC = .ok stLumpC ∧
    set_full_differential_system pC initState regC rxC = .ok stFullC ∧
    stLumpC.variables_ = [] := by
  refine ⟨rfl, rfl, ?_⟩
  have h := (C10_lumped_frame_effect pC initState regC rxC stLumpC stFullC
    rfl rfl).1.2.2.2.1
  simpa [initState] using h

end PyBaMMThermal
